import Mathlib

/-!
Verification of the PDF-to-DOCX converter (filesconverto-python).

Shallow embedding conventions:
* Byte strings (`bytes`) and decoded text (`str`) are both modelled as
  `List Nat` of byte values / Unicode code points.  Python's `latin-1`
  codec maps byte `i` to code point `i`, so `bytes.decode("latin-1")` is
  the identity on this representation.
* Python `float` values appearing in the converter are modelled as `ℚ`;
  every numeric literal the claims exercise is exactly representable in
  binary floating point, so rational arithmetic agrees with the source.
* Fallible Python code is modelled with `Option`/`Except`; the exception
  class raised is tracked where the callers discriminate on it.
-/

/-- Code points of a string literal (used to transcribe the Python string
literals appearing in the source). -/
def strCodes (s : String) : List Nat := s.data.map Char.toNat

/-- The byte-level whitespace class used by `bytes.split()` / `bytes.strip()`:
`b" \t\n\r\x0b\x0c"`. -/
def isWsB (c : Nat) : Bool := c = 32 || c = 9 || c = 10 || c = 13 || c = 11 || c = 12

/-- ASCII decimal digit. -/
def isDigitB (c : Nat) : Bool := 48 ≤ c && c ≤ 57

/-- The code points Python's `str.strip()` removes (`str.isspace()`). -/
def isWsStr (c : Nat) : Bool :=
  isWsB c || c = 28 || c = 29 || c = 30 || c = 31 || c = 133 || c = 160 ||
  c = 5760 || (8192 ≤ c && c ≤ 8202) || c = 8232 || c = 8233 || c = 8239 ||
  c = 8287 || c = 12288

/-- `l.split(sep)` for a single one-byte separator, keeping empty pieces,
like Python's `bytes.split(b"\n")`. -/
def splitB (sep : Nat) : List Nat → List (List Nat)
  | [] => [[]]
  | c :: rest =>
    match splitB sep rest with
    | [] => [[]]
    | h :: t => if c = sep then [] :: h :: t else (c :: h) :: t

/-- Helper for `pyTokens`: accumulates the current (reversed) token. -/
def pyTokensAux (cur : List Nat) : List Nat → List (List Nat)
  | [] => if cur = [] then [] else [cur.reverse]
  | c :: rest =>
    if isWsB c then
      if cur = [] then pyTokensAux [] rest else cur.reverse :: pyTokensAux [] rest
    else pyTokensAux (c :: cur) rest

/-- Python `bytes.split()` with no argument: split on runs of ASCII
whitespace, discarding empty tokens. -/
def pyTokens (l : List Nat) : List (List Nat) := pyTokensAux [] l

/-- Python `pat in l` for byte strings: substring containment. -/
def hasSub (pat : List Nat) : List Nat → Bool
  | [] => pat.isEmpty
  | c :: rest => pat.isPrefixOf (c :: rest) || hasSub pat rest

/-- Python `l.find(pat)`: index of the first occurrence (as `Option`;
Python's `-1` is `none`). -/
def findSub (pat : List Nat) : List Nat → Option Nat
  | [] => if pat.isEmpty then some 0 else none
  | c :: rest =>
    if pat.isPrefixOf (c :: rest) then some 0
    else (findSub pat rest).map (· + 1)

/-- Python `l.rfind(pat)`: index of the last occurrence. -/
def rfindSub (pat l : List Nat) : Option Nat :=
  match findSub pat.reverse l.reverse with
  | none => none
  | some i => some (l.length - pat.length - i)

/-- Python `bytes.strip()` (ASCII whitespace at both ends). -/
def pyStripB (l : List Nat) : List Nat :=
  ((l.dropWhile isWsB).reverse.dropWhile isWsB).reverse

/-- Python `str.strip()` (Unicode whitespace at both ends). -/
def pyStripS (l : List Nat) : List Nat :=
  ((l.dropWhile isWsStr).reverse.dropWhile isWsStr).reverse

/-- Numeric value of a list of ASCII decimal digits. -/
def digitsToNat (l : List Nat) : Nat := l.foldl (fun acc c => acc * 10 + (c - 48)) 0

/-- Python `int(b)` on a byte token: optional surrounding whitespace,
optional sign, then decimal digits.  (Underscore separators, which never
occur in PDF data, are not modelled.) -/
def pyIntBytes (tok : List Nat) : Option Int :=
  let t := pyStripB tok
  let signAndRest : Int × List Nat :=
    match t with
    | 43 :: r => (1, r)
    | 45 :: r => (-1, r)
    | _ => (1, t)
  let ds := signAndRest.2
  if ds ≠ [] && ds.all isDigitB then some (signAndRest.1 * digitsToNat ds) else none

/-- Python `float(b)` on a byte token: optional surrounding whitespace,
optional sign, decimal digits with an optional fractional part.
(Exponent/inf/nan forms never occur in PDF content streams and are not
modelled.) -/
def pyFloatBytes (tok : List Nat) : Option ℚ :=
  let t := pyStripB tok
  let signAndRest : ℚ × List Nat :=
    match t with
    | 43 :: r => (1, r)
    | 45 :: r => (-1, r)
    | _ => (1, t)
  let t2 := signAndRest.2
  let intPart := t2.takeWhile isDigitB
  let rest := t2.drop intPart.length
  match rest with
  | [] => if intPart = [] then none else some (signAndRest.1 * digitsToNat intPart)
  | 46 :: fr =>
    let fracD := fr.takeWhile isDigitB
    if fr.drop fracD.length ≠ [] then none
    else if intPart = [] && fracD = [] then none
    else some (signAndRest.1 *
      ((digitsToNat intPart : ℚ) + (digitsToNat fracD : ℚ) / (10 : ℚ) ^ fracD.length))
  | _ => none

/-- Python `int(x)` on a float: truncation toward zero. -/
def pyTrunc (q : ℚ) : Int := if 0 ≤ q then ⌊q⌋ else -⌊-q⌋

/-- Decimal digits (as code points) of a natural number. -/
def natToDec (n : Nat) : List Nat :=
  (Nat.toDigits 10 n).map Char.toNat

/-- Python `str(i)` / `f"{i}"` for an integer. -/
def intToDec (i : Int) : List Nat :=
  if i < 0 then 45 :: natToDec (-i).toNat else natToDec i.toNat

/-- Upper-case hexadecimal digit for a value `< 16`. -/
def hexDigit (n : Nat) : Nat := if n < 10 then 48 + n else 55 + n

/-- Upper-case hexadecimal digits of `n` (no padding, `0` for zero). -/
def natHex : Nat → List Nat
  | 0 => [48]
  | n + 1 =>
    let rec go (fuel m : Nat) (acc : List Nat) : List Nat :=
      match fuel with
      | 0 => acc
      | f + 1 => if m = 0 then acc else go f (m / 16) (hexDigit (m % 16) :: acc)
    go (n + 1) (n + 1) []

/-- Python `f"{i:02X}"`: upper-case hex, zero-padded to width 2 (the sign
counts toward the width, as in Python). -/
def pyFormat02X (i : Int) : List Nat :=
  if i < 0 then 45 :: natHex (-i).toNat
  else
    let h := natHex i.toNat
    if h.length < 2 then 48 :: h else h

/-- ASCII upper-casing, as Python `str.upper()` acts on the ASCII names the
converter handles. -/
def pyUpper (l : List Nat) : List Nat :=
  l.map fun c => if 97 ≤ c && c ≤ 122 then c - 32 else c

/-- Python dict insertion: overwrite in place if the key exists (keeping its
position), else append. -/
def pyDictInsert {β : Type} (k : List Nat) (v : β) :
    List (List Nat × β) → List (List Nat × β)
  | [] => [(k, v)]
  | (k', v') :: rest =>
    if k' = k then (k, v) :: rest else (k', v') :: pyDictInsert k v rest

/-- Python `d.get(k)`. -/
def pyDictGet {β : Type} (d : List (List Nat × β)) (k : List Nat) : Option β :=
  match d with
  | [] => none
  | (k', v) :: rest => if k' = k then some v else pyDictGet rest k

/-! ## color_processor.py -/

/-- A color observation as built by the extractor: the `space` tag together
with the `values` tuple of `ColorProcessor.convert_color_to_hex`'s input
dictionary. -/
inductive ColorInfo
  | rgb (r g b : ℚ)
  | cmyk (c m y k : ℚ)
  | gray (g : ℚ)
  | other
  deriving DecidableEq

/-- `ColorProcessor.convert_color_to_hex` (`src/color_processor.py`):
RGB scales each 0–1 channel by 255 and truncates; CMYK converts via
`255*(1-x)*(1-k)` per channel then truncates; Gray replicates one channel;
anything else is black. -/
def convert_color_to_hex : ColorInfo → List Nat
  | .rgb r g b =>
    pyFormat02X (pyTrunc (r * 255)) ++ pyFormat02X (pyTrunc (g * 255)) ++
      pyFormat02X (pyTrunc (b * 255))
  | .cmyk c m y k =>
    pyFormat02X (pyTrunc (255 * (1 - c) * (1 - k))) ++
      pyFormat02X (pyTrunc (255 * (1 - m) * (1 - k))) ++
      pyFormat02X (pyTrunc (255 * (1 - y) * (1 - k)))
  | .gray g =>
    let gi := pyTrunc (g * 255)
    pyFormat02X gi ++ pyFormat02X gi ++ pyFormat02X gi
  | .other => strCodes "000000"

/-! ## font_handler.py -/

/-- `FontHandler.FONT_MAPPING`, in Python dict insertion order. -/
def FONT_MAPPING : List (List Nat × List Nat) :=
  [ (strCodes "Times-Roman", strCodes "Times New Roman"),
    (strCodes "Times-Bold", strCodes "Times New Roman"),
    (strCodes "Times-Italic", strCodes "Times New Roman"),
    (strCodes "Times-BoldItalic", strCodes "Times New Roman"),
    (strCodes "Helvetica", strCodes "Arial"),
    (strCodes "Helvetica-Bold", strCodes "Arial"),
    (strCodes "Helvetica-Oblique", strCodes "Arial"),
    (strCodes "Helvetica-BoldOblique", strCodes "Arial"),
    (strCodes "Courier", strCodes "Courier New"),
    (strCodes "Courier-Bold", strCodes "Courier New"),
    (strCodes "Courier-Oblique", strCodes "Courier New"),
    (strCodes "Courier-BoldOblique", strCodes "Courier New"),
    (strCodes "Symbol", strCodes "Symbol"),
    (strCodes "ZapfDingbats", strCodes "Wingdings") ]

/-- First piece of `l.split(sep)` (Python `l.split(sep)[0]`). -/
def splitHead (sep : Nat) (l : List Nat) : List Nat :=
  match splitB sep l with
  | [] => []
  | h :: _ => h

/-- `FontHandler.map_pdf_font_to_word` (`src/font_handler.py`): exact match
against the standard 14 names, then prefix match on each mapping key's
family portion, then keyword containment, then `Calibri`. -/
def map_pdf_font_to_word (pdf_font_name : List Nat) : List Nat :=
  let clean_name := pdf_font_name.dropWhile (· = 47)
  match pyDictGet FONT_MAPPING clean_name with
  | some w => w
  | none =>
    let rec prefixLoop : List (List Nat × List Nat) → Option (List Nat)
      | [] => none
      | (k, w) :: rest =>
        if (splitHead 45 k).isPrefixOf clean_name then some w else prefixLoop rest
    match prefixLoop FONT_MAPPING with
    | some w => w
    | none =>
      let base_font := splitHead 44 (splitHead 45 clean_name)
      if hasSub (strCodes "Times") base_font then strCodes "Times New Roman"
      else if hasSub (strCodes "Helvetica") base_font || hasSub (strCodes "Arial") base_font then
        strCodes "Arial"
      else if hasSub (strCodes "Courier") base_font then strCodes "Courier New"
      else strCodes "Calibri"

/-- `FontHandler.detect_font_style` (`src/font_handler.py`): case-insensitive
keyword scan for bold and italic, returned as `(bold, italic)`. -/
def detect_font_style (font_name : List Nat) : Bool × Bool :=
  let u := pyUpper font_name
  let isBold :=
    [strCodes "BOLD", strCodes "-B", strCodes ",B", strCodes "-BD",
     strCodes "HEAVY", strCodes "BLACK"].any fun k => hasSub k u
  let isItalic :=
    [strCodes "ITALIC", strCodes "OBLIQUE", strCodes "-I", strCodes ",I",
     strCodes "-IT", strCodes "SLANT"].any fun k => hasSub k u
  (isBold, isItalic)

/-! ## text_extractor.py -/

/-- UTF-16 decoding of a byte list given a unit-combining endianness
(`true` = big endian), with invalid/unpaired units dropped as in
`errors="ignore"`.  Only reached for BOM-prefixed payloads.  Fuel-driven
(each step consumes at least two bytes, so `length` fuel suffices). -/
def utf16Decode (be : Bool) : Nat → List Nat → List Nat
  | 0, _ => []
  | fuel + 1, b1 :: b2 :: rest =>
    let u := if be then b1 * 256 + b2 else b2 * 256 + b1
    if 0xD800 ≤ u && u ≤ 0xDBFF then
      match rest with
      | b3 :: b4 :: rest2 =>
        let lo := if be then b3 * 256 + b4 else b4 * 256 + b3
        if 0xDC00 ≤ lo && lo ≤ 0xDFFF then
          (0x10000 + (u - 0xD800) * 0x400 + (lo - 0xDC00)) :: utf16Decode be fuel rest2
        else utf16Decode be fuel (b3 :: b4 :: rest2)
      | _ => []
    else if 0xDC00 ≤ u && u ≤ 0xDFFF then utf16Decode be fuel rest
    else u :: utf16Decode be fuel rest
  | _ + 1, _ => []

/-- `PDFTextExtractor.decode_pdf_text` (`src/text_extractor.py`): a UTF-16
BOM selects UTF-16 decoding; otherwise the `latin-1` attempt always
succeeds, i.e. every byte becomes the equal code point (so the later
`utf-8`/`cp1252` attempts and the lossy fallback are unreachable). -/
def decode_pdf_text (text_bytes : List Nat) : List Nat :=
  match text_bytes with
  | 254 :: 255 :: rest => utf16Decode true rest.length rest
  | 255 :: 254 :: rest => utf16Decode false rest.length rest
  | bs => bs

/-- `PDFTextExtractor.unescape_pdf_string` (`src/text_extractor.py`):
resolves `\n \r \t \b \f \( \) \\`, one-to-three-digit octal escapes
(a digit `8`/`9` in the collected digits makes `int(_, 8)` fail, keeping
the lone backslash), and passes any other escape through. -/
def octVal (ds : List Nat) : Nat := ds.foldl (fun acc d => acc * 8 + (d - 48)) 0

/-- The loop body of `unescape_pdf_string`, with explicit fuel so the
kernel can evaluate it.  Every iteration consumes at least one character
and one unit of fuel, so `l.length` fuel never runs out (the fuel-0 case
is unreachable from `unescape_pdf_string`). -/
def unescapeAux : Nat → List Nat → List Nat
  | 0, r => r
  | _ + 1, [] => []
  | _ + 1, [c] => [c]
  | fuel + 1, c :: next :: rest =>
    if c = 92 then
      if next = 110 then 10 :: unescapeAux fuel rest
      else if next = 114 then 13 :: unescapeAux fuel rest
      else if next = 116 then 9 :: unescapeAux fuel rest
      else if next = 98 then 8 :: unescapeAux fuel rest
      else if next = 102 then 12 :: unescapeAux fuel rest
      else if next = 40 then 40 :: unescapeAux fuel rest
      else if next = 41 then 41 :: unescapeAux fuel rest
      else if next = 92 then 92 :: unescapeAux fuel rest
      else if isDigitB next then
        -- octal: `text[i+1:i+4]`, digits kept up to the first non-digit;
        -- a collected digit above `'7'` makes `int(_, 8)` raise, so the
        -- lone backslash is kept and scanning resumes at the digit
        let ds := (next :: rest.take 2).takeWhile isDigitB
        if ds.all (· ≤ 55) then
          octVal ds :: unescapeAux fuel (rest.drop (ds.length - 1))
        else 92 :: unescapeAux fuel (next :: rest)
      else 92 :: unescapeAux fuel (next :: rest)
    else c :: unescapeAux fuel (next :: rest)

/-- `PDFTextExtractor.unescape_pdf_string` (`src/text_extractor.py`):
resolves `\n \r \t \b \f \( \) \\`, one-to-three-digit octal escapes, and
passes any other escape through with its backslash. -/
def unescape_pdf_string (l : List Nat) : List Nat := unescapeAux l.length l

/-- A text item recorded by `PDFTextExtractor.process_stream`: the dict
`{"text": …, "font": …, "size": …, "color": …}` (font is `None` until a
`Tf` is seen). -/
structure TextItem where
  text : List Nat
  font : Option (List Nat)
  size : ℚ
  color : ℚ × ℚ × ℚ
  deriving DecidableEq

/-- The extractor's mutable state (`current_font`, `current_font_size`,
`current_fill_color`, accumulated `text_items`). -/
structure ExtractorState where
  font : Option (List Nat)
  size : ℚ
  color : ℚ × ℚ × ℚ
  items : List TextItem
  deriving DecidableEq

/-- One iteration of `PDFTextExtractor.process_stream`'s per-line loop.
Branch order as in the source: `Tf` (font assigned before the size parse,
so a bad size still changes the font), then `rg` (the tuple is assigned
only after all three floats parse), then the `(…) Tj` text branch using
`find("(")`/`rfind(")")`. -/
def process_stream_line (st : ExtractorState) (line : List Nat) : ExtractorState :=
  let tokens := pyTokens line
  if 3 ≤ tokens.length ∧ tokens.getLast? = some (strCodes "Tf") then
    let font := some (tokens.getD (tokens.length - 3) [])
    match pyFloatBytes (tokens.getD (tokens.length - 2) []) with
    | some sz => { st with font := font, size := sz }
    | none => { st with font := font }
  else if 4 ≤ tokens.length ∧ tokens.getLast? = some (strCodes "rg") then
    match pyFloatBytes (tokens.getD (tokens.length - 4) []),
        pyFloatBytes (tokens.getD (tokens.length - 3) []),
        pyFloatBytes (tokens.getD (tokens.length - 2) []) with
    | some r, some g, some b => { st with color := (r, g, b) }
    | _, _, _ => st
  else if hasSub (strCodes "(") line = true ∧ hasSub (strCodes ")") line = true ∧
      hasSub (strCodes "Tj") line = true then
    match findSub (strCodes "(") line, rfindSub (strCodes ")") line with
    | some start, some stop =>
      if start < stop then
        let text_bytes := (line.take stop).drop (start + 1)
        let text := unescape_pdf_string (decode_pdf_text text_bytes)
        { st with items := st.items ++ [⟨text, st.font, st.size, st.color⟩] }
      else st
    | _, _ => st
  else st

/-- `PDFTextExtractor.process_stream` (`src/text_extractor.py`): split the
decompressed stream on newlines and run the stateful per-line loop,
starting from font `None`, size 12, black fill. -/
def process_stream (stream_data : List Nat) : List TextItem :=
  ((splitB 10 stream_data).foldl process_stream_line ⟨none, 12, (0, 0, 0), []⟩).items

/-! ## pdf_compression.py -/

/-- Python exception classes the converter distinguishes. -/
inductive PyExc
  | valueError
  | indexError
  | notImplementedError
  deriving DecidableEq

/-- A PDF dictionary value as produced by `PDFParser.parse_pdf_dictionary`:
either the raw byte token or, for `/Name` tokens, the decoded Python `str`
with the slash stripped. -/
inductive PyVal
  | bytes (l : List Nat)
  | str (s : List Nat)
  deriving DecidableEq

/-- Python truthiness for a `PyVal` (`if filter_type:`): empty bytes/str are
falsy. -/
def pyTruthyVal : PyVal → Bool
  | .bytes l => !l.isEmpty
  | .str s => !s.isEmpty

/-- The filter-name normalization at the top of
`PDFCompression.decompress_stream`: decode bytes as latin-1 (identity) or
take `str(...)` of a string, then strip one leading `/`. -/
def filterName : PyVal → List Nat
  | .bytes l => if l.head? = some 47 then l.tail else l
  | .str s => if s.head? = some 47 then s.tail else s

/-- `PDFCompression.decompress_stream` (`src/pdf_compression.py`).
`flate` abstracts `PDFCompression.decompress_flate`, whose body wraps the
external `zlib` library (not part of this repository); its failures are
`ValueError`s.  LZW/ASCII85/CCITTFax raise `NotImplementedError`; DCT and
unknown filters pass the data through. -/
def decompress_stream (flate : List Nat → Except PyExc (List Nat))
    (stream_data : List Nat) (filter_type : PyVal) : Except PyExc (List Nat) :=
  let f := filterName filter_type
  if f = strCodes "FlateDecode" then flate stream_data
  else if f = strCodes "LZWDecode" then .error .notImplementedError
  else if f = strCodes "ASCII85Decode" then .error .notImplementedError
  else if f = strCodes "DCTDecode" then .ok stream_data
  else if f = strCodes "CCITTFaxDecode" then .error .notImplementedError
  else .ok stream_data

/-- The `stream_info` dictionary consumed by
`PDFCompression.process_content_stream`: the raw stream bytes (absent key
modelled as `none`) and the parsed object dictionary. -/
structure StreamInfo where
  obj_num : Nat
  gen_num : Nat
  dictionary : List (List Nat × PyVal)
  stream : Option (List Nat)
  deriving DecidableEq

/-- `PDFCompression.process_content_stream` (`src/pdf_compression.py`):
empty/absent stream data gives `None`; a truthy `/Filter` is decompressed,
and on `NotImplementedError`/`ValueError` a warning is printed (second
component `true`) and the original still-encoded bytes are returned. -/
def process_content_stream (flate : List Nat → Except PyExc (List Nat))
    (info : StreamInfo) : Option (List Nat) × Bool :=
  match info.stream with
  | none => (none, false)
  | some stream_data =>
    if stream_data = [] then (none, false)
    else
      match pyDictGet info.dictionary (strCodes "Filter") with
      | some filter_type =>
        if pyTruthyVal filter_type then
          match decompress_stream flate stream_data filter_type with
          | .ok d => (some d, false)
          | .error _ => (some stream_data, true)
        else (some stream_data, false)
      | none => (some stream_data, false)

/-! ## layout_processor.py -/

/-- A positioned text item as produced by
`PDFTextExtractor.extract_text_with_positions`. -/
structure PosItem where
  text : List Nat
  x : ℚ
  y : ℚ
  deriving DecidableEq

/-- The sort key of `LayoutProcessor.reconstruct_layout`'s
`sorted(..., key=lambda item: (-item.get("y", 0), item.get("x", 0)))`:
descending y, then ascending x. -/
def leYX (a b : PosItem) : Prop :=
  b.y < a.y ∨ (a.y = b.y ∧ a.x ≤ b.x)

instance : DecidableRel leYX := fun a b => by unfold leYX; exact inferInstance

instance : IsTotal PosItem leYX where
  total a b := by
    unfold leYX
    rcases lt_trichotomy a.y b.y with h | h | h
    · exact .inr (.inl h)
    · rcases le_total a.x b.x with hx | hx
      · exact .inl (.inr ⟨h, hx⟩)
      · exact .inr (.inr ⟨h.symm, hx⟩)
    · exact .inl (.inl h)

instance : IsTrans PosItem leYX where
  trans a b c hab hbc := by
    unfold leYX at *
    rcases hab with h1 | ⟨h1, h1x⟩ <;> rcases hbc with h2 | ⟨h2, h2x⟩
    · exact .inl (h2.trans h1)
    · exact .inl (h2 ▸ h1)
    · exact .inl (h1 ▸ h2)
    · exact .inr ⟨h1.trans h2, h1x.trans h2x⟩

/-- The key of the in-line `current_line.sort(key=lambda x: x.get("x", 0))`. -/
def leX (a b : PosItem) : Prop := a.x ≤ b.x

instance : DecidableRel leX := fun a b => by unfold leX; exact inferInstance

instance : IsTotal PosItem leX where
  total a b := le_total a.x b.x

instance : IsTrans PosItem leX where
  trans _ _ _ h1 h2 := le_trans h1 h2

/-- Python's `sorted`/`list.sort` are stable; `List.insertionSort` with a
non-strict total preorder is stable as well (an element is inserted before
the first element it is ≤-related to, i.e. before no earlier-equal
element), so it computes the same permutation. -/
def pySorted (r : PosItem → PosItem → Prop) [DecidableRel r] (l : List PosItem) :
    List PosItem := List.insertionSort r l

/-- The line-grouping loop of `LayoutProcessor.reconstruct_layout`:
`current_y` is the first y of the line (never updated while items join),
an item joins while `|item_y - current_y| <= 2`, and each finalized line is
sorted by ascending x. -/
def groupLines (current_line : List PosItem) (current_y : ℚ) :
    List PosItem → List (List PosItem)
  | [] => [pySorted leX current_line]
  | it :: rest =>
    if |it.y - current_y| ≤ 2 then groupLines (current_line ++ [it]) current_y rest
    else pySorted leX current_line :: groupLines [it] it.y rest

/-- `LayoutProcessor.reconstruct_layout` (`src/layout_processor.py`): sort
by (-y, x), then group into lines with the 2-point y tolerance. -/
def reconstruct_layout (text_positions : List PosItem) : List (List PosItem) :=
  match pySorted leYX text_positions with
  | [] => []
  | first :: rest => groupLines [first] first.y rest

/-- The paragraph-break test of `LayoutProcessor.detect_paragraphs`: both
lines non-empty and first-item y gap above 20 points. -/
def paraBreak (line next_line : List PosItem) : Bool :=
  match line, next_line with
  | l0 :: _, n0 :: _ => |l0.y - n0.y| > 20
  | _, _ => false

/-- The indexed loop of `LayoutProcessor.detect_paragraphs`: accumulate
lines, break on a large gap, and always emit the paragraph holding the
last line. -/
def detectParasLoop (current : List PosItem) :
    List (List PosItem) → List (List PosItem)
  | [] => []
  | [line] => [current ++ line]
  | line :: next :: rest =>
    if paraBreak line next then
      (current ++ line) :: detectParasLoop [] (next :: rest)
    else detectParasLoop (current ++ line) (next :: rest)

/-- `LayoutProcessor.detect_paragraphs` (`src/layout_processor.py`).  The
trailing `if current_paragraph and not paragraphs` append of the source is
a no-op: for non-empty input the last loop iteration already appended, and
for empty input both lists are empty. -/
def detect_paragraphs (lines : List (List PosItem)) : List (List PosItem) :=
  match lines with
  | [] => []
  | _ => detectParasLoop [] lines

/-! ## docx_generator.py -/

/-- A content item as consumed by `DOCXGenerator.create_document_xml`:
the dict fields it reads, with `none` standing for an absent key or a
Python `None` value (both behave identically under the source's
`item.get(...)`/truthiness tests). -/
structure ContentItem where
  text : List Nat
  font : Option (List Nat)
  size : Option ℚ
  color : Option (List Nat)
  bold : Bool
  italic : Bool
  deriving DecidableEq

/-- `DOCXGenerator.escape_xml` (`src/docx_generator.py`).  The source
applies five sequential `str.replace` calls starting with `&`; since no
replacement output contains a character replaced later, this equals the
single-pass per-character expansion. -/
def escape_xml (text : List Nat) : List Nat :=
  text.flatMap fun c =>
    if c = 38 then strCodes "&amp;"
    else if c = 60 then strCodes "&lt;"
    else if c = 62 then strCodes "&gt;"
    else if c = 34 then strCodes "&quot;"
    else if c = 39 then strCodes "&apos;"
    else [c]

/-- The `xml_parts` lines appended for one content item by
`DOCXGenerator.create_document_xml`'s loop (empty when the
whitespace-stripped text is empty and the item is skipped). -/
def itemXmlParts (item : ContentItem) : List (List Nat) :=
  if pyStripS item.text = [] then []
  else
    let fontLines :=
      match item.font with
      | some f =>
        if f ≠ [] then
          let fn := escape_xml f
          [strCodes "          <w:rFonts w:ascii=\"" ++ fn ++ strCodes "\" w:hAnsi=\"" ++
            fn ++ strCodes "\"/>"]
        else []
      | none => []
    let sizeLines :=
      match item.size with
      | some q =>
        if q ≠ 0 then
          let n := intToDec (pyTrunc (q * 2))
          [strCodes "          <w:sz w:val=\"" ++ n ++ strCodes "\"/>",
           strCodes "          <w:szCs w:val=\"" ++ n ++ strCodes "\"/>"]
        else []
      | none => []
    let colorLines :=
      match item.color with
      | some c =>
        if c ≠ [] then [strCodes "          <w:color w:val=\"" ++ c ++ strCodes "\"/>"]
        else []
      | none => []
    let boldLines := if item.bold then [strCodes "          <w:b/>"] else []
    let italicLines := if item.italic then [strCodes "          <w:i/>"] else []
    [strCodes "    <w:p>",
     strCodes "      <w:pPr>",
     strCodes "        <w:jc w:val=\"left\"/>",
     strCodes "      </w:pPr>",
     strCodes "      <w:r>",
     strCodes "        <w:rPr>"] ++
    fontLines ++ sizeLines ++ colorLines ++ boldLines ++ italicLines ++
    [strCodes "        </w:rPr>",
     strCodes "        <w:t xml:space=\"preserve\">" ++ escape_xml item.text ++
       strCodes "</w:t>",
     strCodes "      </w:r>",
     strCodes "    </w:p>"]

/-- `DOCXGenerator.create_document_xml` (`src/docx_generator.py`) as its
`xml_parts` list (the source joins these lines with `"\n"`): header and
body wrapper, one paragraph per non-blank content item, and a single empty
paragraph `<w:p/>` exactly when the content-item list is empty. -/
def create_document_xml_parts (content_items : List ContentItem) : List (List Nat) :=
  [strCodes "<?xml version=\"1.0\" encoding=\"UTF-8\" standalone=\"yes\"?>",
   strCodes "<w:document xmlns:w=\"http://schemas.openxmlformats.org/wordprocessingml/2006/main\">",
   strCodes "  <w:body>"] ++
  content_items.flatMap itemXmlParts ++
  (if content_items = [] then [strCodes "    <w:p/>"] else []) ++
  [strCodes "  </w:body>",
   strCodes "</w:document>"]

/-- `"\n".join(xml_parts)`. -/
def joinNl (parts : List (List Nat)) : List Nat := (parts.intersperse [10]).flatten

/-- `DOCXGenerator.create_document_xml` proper. -/
def create_document_xml (content_items : List ContentItem) : List Nat :=
  joinNl (create_document_xml_parts content_items)

/-- Number of paragraph elements among the document XML lines: the opening
line of an item paragraph or the empty-paragraph line (these exact strings
are produced nowhere else in `create_document_xml`). -/
def paraCount (parts : List (List Nat)) : Nat :=
  parts.countP fun l => l = strCodes "    <w:p>" || l = strCodes "    <w:p/>"

/-- `DOCXGenerator.create_font_table_xml`: `sorted(set(fonts))`, defaulting
to Calibri, each font rendered as a fixed five-line block.  Python compares
strings by code points, matching lexicographic order on the code lists. -/
def lexLe (a b : List Nat) : Prop := a ≤ b

instance : DecidableRel lexLe := fun a b => by unfold lexLe; exact inferInstance

/-- Order-insensitive dedup standing for `set(fonts)` (the subsequent sort
makes the set's iteration order irrelevant). -/
def dedup (l : List (List Nat)) : List (List Nat) :=
  l.foldl (fun acc f => if f ∈ acc then acc else acc ++ [f]) []

/-- `DOCXGenerator.create_font_table_xml` (`src/docx_generator.py`). -/
def create_font_table_xml (fonts : List (List Nat)) : List Nat :=
  let unique := if fonts = [] then [strCodes "Calibri"] else dedup fonts
  let sortedFonts := List.insertionSort lexLe unique
  joinNl
    ([strCodes "<?xml version=\"1.0\" encoding=\"UTF-8\" standalone=\"yes\"?>",
      strCodes "<w:fonts xmlns:w=\"http://schemas.openxmlformats.org/wordprocessingml/2006/main\">"] ++
     (sortedFonts.flatMap fun f =>
       [strCodes "  <w:font w:name=\"" ++ f ++ strCodes "\">",
        strCodes "    <w:panose1 w:val=\"00000000000000000000\"/>",
        strCodes "    <w:charset w:val=\"00\"/>",
        strCodes "    <w:family w:val=\"auto\"/>",
        strCodes "    <w:pitch w:val=\"variable\"/>",
        strCodes "  </w:font>"]) ++
     [strCodes "</w:fonts>"])

/-- `DOCXGenerator.create_content_types_xml` (fixed literal). -/
def create_content_types_xml : List Nat := strCodes
  "<?xml version=\"1.0\" encoding=\"UTF-8\" standalone=\"yes\"?>\n<Types xmlns=\"http://schemas.openxmlformats.org/package/2006/content-types\">\n  <Default Extension=\"rels\" ContentType=\"application/vnd.openxmlformats-package.relationships+xml\"/>\n  <Default Extension=\"xml\" ContentType=\"application/xml\"/>\n  <Override PartName=\"/word/document.xml\" \n    ContentType=\"application/vnd.openxmlformats-officedocument.wordprocessingml.document.main+xml\"/>\n  <Override PartName=\"/word/styles.xml\" \n    ContentType=\"application/vnd.openxmlformats-officedocument.wordprocessingml.styles+xml\"/>\n  <Override PartName=\"/word/fontTable.xml\" \n    ContentType=\"application/vnd.openxmlformats-officedocument.wordprocessingml.fontTable+xml\"/>\n  <Override PartName=\"/docProps/core.xml\" \n    ContentType=\"application/vnd.openxmlformats-package.core-properties+xml\"/>\n  <Override PartName=\"/docProps/app.xml\" \n    ContentType=\"application/vnd.openxmlformats-officedocument.extended-properties+xml\"/>\n</Types>"

/-- `DOCXGenerator.create_rels_xml` (fixed literal). -/
def create_rels_xml : List Nat := strCodes
  "<?xml version=\"1.0\" encoding=\"UTF-8\" standalone=\"yes\"?>\n<Relationships xmlns=\"http://schemas.openxmlformats.org/package/2006/relationships\">\n  <Relationship Id=\"rId1\" Type=\"http://schemas.openxmlformats.org/officeDocument/2006/relationships/officeDocument\" \n    Target=\"word/document.xml\"/>\n  <Relationship Id=\"rId2\" Type=\"http://schemas.openxmlformats.org/package/2006/relationships/metadata/core-properties\" \n    Target=\"docProps/core.xml\"/>\n  <Relationship Id=\"rId3\" Type=\"http://schemas.openxmlformats.org/officeDocument/2006/relationships/extended-properties\" \n    Target=\"docProps/app.xml\"/>\n</Relationships>"

/-- `DOCXGenerator.create_document_rels_xml` (fixed literal). -/
def create_document_rels_xml : List Nat := strCodes
  "<?xml version=\"1.0\" encoding=\"UTF-8\" standalone=\"yes\"?>\n<Relationships xmlns=\"http://schemas.openxmlformats.org/package/2006/relationships\">\n  <Relationship Id=\"rId1\" Type=\"http://schemas.openxmlformats.org/officeDocument/2006/relationships/styles\" \n    Target=\"styles.xml\"/>\n  <Relationship Id=\"rId2\" Type=\"http://schemas.openxmlformats.org/officeDocument/2006/relationships/fontTable\" \n    Target=\"fontTable.xml\"/>\n</Relationships>"

/-- `DOCXGenerator.create_styles_xml` (fixed literal). -/
def create_styles_xml : List Nat := strCodes
  "<?xml version=\"1.0\" encoding=\"UTF-8\" standalone=\"yes\"?>\n<w:styles xmlns:w=\"http://schemas.openxmlformats.org/wordprocessingml/2006/main\">\n  <w:docDefaults>\n    <w:rPrDefault>\n      <w:rPr>\n        <w:rFonts w:ascii=\"Calibri\" w:hAnsi=\"Calibri\"/>\n        <w:sz w:val=\"22\"/>\n      </w:rPr>\n    </w:rPrDefault>\n  </w:docDefaults>\n  <w:style w:type=\"paragraph\" w:styleId=\"Normal\">\n    <w:name w:val=\"Normal\"/>\n    <w:qFormat/>\n  </w:style>\n</w:styles>"

/-- `DOCXGenerator.create_core_props_xml` interpolates the
`datetime.utcnow()` timestamp; the formatted time string is taken as a
parameter (the only I/O-dependent value in the package). -/
def create_core_props_xml (now : List Nat) : List Nat :=
  strCodes "<?xml version=\"1.0\" encoding=\"UTF-8\" standalone=\"yes\"?>\n<cp:coreProperties xmlns:cp=\"http://schemas.openxmlformats.org/package/2006/metadata/core-properties\" \n  xmlns:dc=\"http://purl.org/dc/elements/1.1/\" \n  xmlns:dcterms=\"http://purl.org/dc/terms/\" \n  xmlns:xsi=\"http://www.w3.org/2001/XMLSchema-instance\">\n  <dc:creator>PDF Converter</dc:creator>\n  <cp:lastModifiedBy>PDF Converter</cp:lastModifiedBy>\n  <dcterms:created xsi:type=\"dcterms:W3CDTF\">" ++
  now ++ strCodes "</dcterms:created>\n  <dcterms:modified xsi:type=\"dcterms:W3CDTF\">" ++
  now ++ strCodes "</dcterms:modified>\n</cp:coreProperties>"

/-- `DOCXGenerator.create_app_props_xml` (fixed literal). -/
def create_app_props_xml : List Nat := strCodes
  "<?xml version=\"1.0\" encoding=\"UTF-8\" standalone=\"yes\"?>\n<Properties xmlns=\"http://schemas.openxmlformats.org/officeDocument/2006/extended-properties\">\n  <Application>PDF Converter</Application>\n  <DocSecurity>0</DocSecurity>\n  <ScaleCrop>false</ScaleCrop>\n  <Company></Company>\n  <LinksUpToDate>false</LinksUpToDate>\n  <SharedDoc>false</SharedDoc>\n  <HyperlinksChanged>false</HyperlinksChanged>\n  <AppVersion>1.0</AppVersion>\n</Properties>"

/-- The font derivation at the top of `DOCXGenerator.create_docx_file` when
`fonts is None`: truthy fonts of the items, first occurrence kept. -/
def deriveFonts (content_items : List ContentItem) : List (List Nat) :=
  content_items.foldl
    (fun acc it =>
      match it.font with
      | some f => if f ≠ [] ∧ f ∉ acc then acc ++ [f] else acc
      | none => acc) []

/-- `DOCXGenerator.create_docx_file` (`src/docx_generator.py`) as the
ordered (part name, part content) pairs written into the ZIP archive.
`fonts = none` models the `fonts=None` default. -/
def create_docx_file_parts (content_items : List ContentItem)
    (fonts : Option (List (List Nat))) (now : List Nat) :
    List (List Nat × List Nat) :=
  let fonts1 := match fonts with | some fs => fs | none => deriveFonts content_items
  let fonts2 := if fonts1 = [] then [strCodes "Calibri"] else fonts1
  [ (strCodes "[Content_Types].xml", create_content_types_xml),
    (strCodes "_rels/.rels", create_rels_xml),
    (strCodes "word/document.xml", create_document_xml content_items),
    (strCodes "word/_rels/document.xml.rels", create_document_rels_xml),
    (strCodes "word/styles.xml", create_styles_xml),
    (strCodes "word/fontTable.xml", create_font_table_xml fonts2),
    (strCodes "docProps/core.xml", create_core_props_xml now),
    (strCodes "docProps/app.xml", create_app_props_xml) ]

/-! ## main.py -/

/-- The per-item enrichment inside `PDFConverter.extract_text_content`
(`src/main.py` lines 151–167): a truthy font is mapped to a Word font and
its style detected from the mapped name; the color tuple (always truthy)
is converted to hex with space `"RGB"`. -/
def enrichItem (it : TextItem) : ContentItem :=
  let fontStyled : Option (List Nat) × Bool × Bool :=
    match it.font with
    | some f =>
      if f ≠ [] then
        let word_font := map_pdf_font_to_word f
        let style := detect_font_style word_font
        (some word_font, style.1, style.2)
      else (some f, false, false)
    | none => (none, false, false)
  { text := it.text
    font := fontStyled.1
    size := some it.size
    color := some (convert_color_to_hex (.rgb it.color.1 it.color.2.1 it.color.2.2))
    bold := fontStyled.2.1
    italic := fontStyled.2.2 }

/-- `PDFConverter.extract_text_content` restricted to a single processed
stream: run the stateful extractor, then enrich every item.  (The
`font_specs` variable the source also computes is never used.) -/
def extract_text_content_items (stream_data : List Nat) : List ContentItem :=
  (process_stream stream_data).map enrichItem

/-! ## pdf_parser.py -/

/-- Python slice `data[off:]` with an `int` offset (negative offsets count
from the end, clamped at 0). -/
def pySliceFrom (data : List Nat) (off : Int) : List Nat :=
  if 0 ≤ off then data.drop off.toNat
  else data.drop ((data.length : Int) + off).toNat

/-- `PDFParser.extract_pdf_version` (`src/pdf_parser.py`): first line,
decoded, `split("-")[1]` — an `IndexError` when the header holds no
hyphen. -/
def extract_pdf_version (data : List Nat) : Except PyExc (List Nat) :=
  let header_line := data.takeWhile (· ≠ 10)
  match splitB 45 header_line with
  | _ :: v :: _ => .ok v
  | _ => .error .indexError

/-- The regex-match attempt of `extract_objects`' pattern
`(\d+)\s+(\d+)\s+obj(.*?)endobj` anchored at index `i` (with `re.DOTALL`).
The character classes `\d`, `\s` and the literals are pairwise disjoint, so
the greedy quantifiers are maximal-munch and the lazy group ends at the
first `endobj`.  Returns object number, generation, content, match end. -/
def matchObjAt (data : List Nat) (i : Nat) : Option (Nat × Nat × List Nat × Nat) :=
  let rest := data.drop i
  let d1 := rest.takeWhile isDigitB
  if d1 = [] then none else
  let r1 := rest.drop d1.length
  let w1 := r1.takeWhile isWsB
  if w1 = [] then none else
  let r2 := r1.drop w1.length
  let d2 := r2.takeWhile isDigitB
  if d2 = [] then none else
  let r3 := r2.drop d2.length
  let w2 := r3.takeWhile isWsB
  if w2 = [] then none else
  let r4 := r3.drop w2.length
  if (strCodes "obj").isPrefixOf r4 then
    let body := r4.drop 3
    match findSub (strCodes "endobj") body with
    | none => none
    | some k =>
      some (digitsToNat d1, digitsToNat d2, body.take k,
        i + d1.length + w1.length + d2.length + w2.length + 3 + k + 6)
  else none

/-- `re.finditer` scanning: try each start position in order; after a
match, continue at its end.  Structured with explicit fuel so the kernel
can evaluate it; `data.length + 1` steps always suffice because every
iteration advances the position by at least one (`matchObjAt_advances`
below proves a successful match ends strictly past its start). -/
def scanObjects (data : List Nat) : Nat → Nat → List ((Nat × Nat) × List Nat)
  | 0, _ => []
  | fuel + 1, i =>
    if data.length ≤ i then []
    else
      match matchObjAt data i with
      | some (o, g, c, e) => ((o, g), c) :: scanObjects data fuel e
      | none => scanObjects data fuel (i + 1)

/-- `PDFParser.extract_objects` (`src/pdf_parser.py`): all regex matches of
`N M obj … endobj`, collected into a dict keyed by `(obj, gen)` (a later
match overwrites an earlier one at the same key, keeping its position). -/
def extract_objects (data : List Nat) : List ((Nat × Nat) × List Nat) :=
  (scanObjects data (data.length + 1) 0).foldl
    (fun acc kv =>
      match acc.find? (fun p => p.1 = kv.1) with
      | some _ => acc.map fun p => if p.1 = kv.1 then kv else p
      | none => acc ++ [kv]) []

/-- One xref-table entry: `(object index, offset, generation)`. -/
abbrev XrefEntry := Nat × Int × Int

/-- The per-line loop of `PDFParser.parse_xref`: stop at `trailer`, take
20-byte entries, record in-use (`n`) entries, and raise `ValueError` when
`int()` fails on an entry's offset or generation field. -/
def xrefLoop : List (List Nat) → Nat → List XrefEntry → Except PyExc (List XrefEntry)
  | [], _, acc => .ok acc
  | line :: rest, idx, acc =>
    if pyStripB line = strCodes "trailer" then .ok acc
    else if (pyStripB line).length = 20 then
      match pyIntBytes (line.take 10), pyIntBytes ((line.drop 11).take 5) with
      | some off, some gen =>
        let acc' := if (line.drop 17).take 1 = [110] then acc ++ [(idx, off, gen)] else acc
        xrefLoop rest (idx + 1) acc'
      | _, _ => .error .valueError
    else xrefLoop rest idx acc

/-- `PDFParser.parse_xref` (`src/pdf_parser.py`): locate the last
`startxref`, read the offset from the following line
(an `IndexError` when no newline follows the keyword, a `ValueError` when
the keyword is absent or the offset is non-numeric), then scan the table
at that offset. -/
def parse_xref (data : List Nat) : Except PyExc (List XrefEntry) :=
  match rfindSub (strCodes "startxref") data with
  | none => .error .valueError
  | some xref_start =>
    match splitB 10 (data.drop (xref_start + 9)) with
    | _ :: offset_data :: _ =>
      match pyIntBytes (pyStripB offset_data) with
      | none => .error .valueError
      | some xref_offset =>
        let lines := splitB 10 (pySliceFrom data xref_offset)
        xrefLoop (lines.drop 2) 0 []
    | _ => .error .indexError

/-- `PDFParser.parse_pdf_dictionary`'s token loop: `/Key value` pairs, a
`/Name` value decoded with the slash stripped, other values kept as raw
bytes. -/
def parseDictLoop : List (List Nat) → List (List Nat × PyVal) → List (List Nat × PyVal)
  | [], acc => acc
  | t :: rest, acc =>
    if t.head? = some 47 then
      match rest with
      | v :: rest' =>
        let val := if v.head? = some 47 then PyVal.str v.tail else PyVal.bytes v
        parseDictLoop rest' (pyDictInsert t.tail val acc)
      | [] => acc
    else parseDictLoop rest acc

/-- `PDFParser.parse_pdf_dictionary` (`src/pdf_parser.py`). -/
def parse_pdf_dictionary (dict_bytes : List Nat) : List (List Nat × PyVal) :=
  let content := pyStripB dict_bytes
  let content := if (strCodes "<<").isPrefixOf content then content.drop 2 else content
  let content :=
    if (strCodes ">>").isSuffixOf content then content.take (content.length - 2)
    else content
  parseDictLoop (pyTokens content) []

/-- `PDFParser.find_content_streams` (`src/pdf_parser.py`): objects whose
body holds both `stream` and `endstream`; the dictionary is everything
before the first `stream`, and the stream body runs from after `stream`
plus any following `\r`/`\n`/space up to the first `endstream`. -/
def find_content_streams (objects : List ((Nat × Nat) × List Nat)) : List StreamInfo :=
  objects.filterMap fun kv =>
    let content := kv.2
    if hasSub (strCodes "stream") content && hasSub (strCodes "endstream") content then
      match findSub (strCodes "stream") content, findSub (strCodes "endstream") content with
      | some dict_end, some stream_end =>
        let dictionary := content.take dict_end
        let afterKw := content.drop (dict_end + 6)
        let pad := (afterKw.takeWhile fun c => c = 13 || c = 10 || c = 32).length
        let stream_data := (content.take stream_end).drop (dict_end + 6 + pad)
        some ⟨kv.1.1, kv.1.2, parse_pdf_dictionary dictionary, some stream_data⟩
      | _, _ => none
    else none

/-- The parse result of `PDFParser.parse_pdf_structure`. -/
structure PdfStructure where
  version : List Nat
  objects : List ((Nat × Nat) × List Nat)
  xref : List XrefEntry
  content_streams : List StreamInfo
  total_objects : Nat
  total_streams : Nat
  deriving DecidableEq

/-- `PDFParser.parse_pdf_structure` (`src/pdf_parser.py`): version, object
scan, xref with only `ValueError` caught (an `IndexError` from
`parse_xref` propagates and aborts), and content streams. -/
def parse_pdf_structure (data : List Nat) : Except PyExc PdfStructure := do
  let version ← extract_pdf_version data
  let objects := extract_objects data
  let xref ←
    match parse_xref data with
    | .ok x => pure x
    | .error .valueError => pure []
    | .error e => throw e
  let content_streams := find_content_streams objects
  pure ⟨version, objects, xref, content_streams, objects.length, content_streams.length⟩

/-! ## Concrete values used in the claim statements -/

/-- The eight part names `DOCXGenerator.create_docx_file` writes, in ZIP
order. -/
def docxPartNames : List (List Nat) :=
  [strCodes "[Content_Types].xml",
   strCodes "_rels/.rels",
   strCodes "word/document.xml",
   strCodes "word/_rels/document.xml.rels",
   strCodes "word/styles.xml",
   strCodes "word/fontTable.xml",
   strCodes "docProps/core.xml",
   strCodes "docProps/app.xml"]

/-- `word/document.xml` lines for an empty document: a single empty
paragraph inside the body. -/
def emptyDocXmlParts : List (List Nat) :=
  [strCodes "<?xml version=\"1.0\" encoding=\"UTF-8\" standalone=\"yes\"?>",
   strCodes "<w:document xmlns:w=\"http://schemas.openxmlformats.org/wordprocessingml/2006/main\">",
   strCodes "  <w:body>",
   strCodes "    <w:p/>",
   strCodes "  </w:body>",
   strCodes "</w:document>"]

/-- The content stream of the single-stream scenario, exactly as the spec
writes it (one line, no newlines). -/
def helloStream : List Nat := strCodes "BT /F1 12 Tf 100 700 Td (Hello World) Tj ET"

/-- The document.xml lines actually generated for `helloStream`: one
paragraph, text `Hello World`, size 24 half-points, color `000000`, and no
font declaration. -/
def helloDocParts : List (List Nat) :=
  [strCodes "<?xml version=\"1.0\" encoding=\"UTF-8\" standalone=\"yes\"?>",
   strCodes "<w:document xmlns:w=\"http://schemas.openxmlformats.org/wordprocessingml/2006/main\">",
   strCodes "  <w:body>",
   strCodes "    <w:p>",
   strCodes "      <w:pPr>",
   strCodes "        <w:jc w:val=\"left\"/>",
   strCodes "      </w:pPr>",
   strCodes "      <w:r>",
   strCodes "        <w:rPr>",
   strCodes "          <w:sz w:val=\"24\"/>",
   strCodes "          <w:szCs w:val=\"24\"/>",
   strCodes "          <w:color w:val=\"000000\"/>",
   strCodes "        </w:rPr>",
   strCodes "        <w:t xml:space=\"preserve\">Hello World</w:t>",
   strCodes "      </w:r>",
   strCodes "    </w:p>",
   strCodes "  </w:body>",
   strCodes "</w:document>"]

/-- Two distinct items sharing the same (y, x) coordinates. -/
def pTieA : PosItem := ⟨[65], 0, 0⟩

def pTieB : PosItem := ⟨[66], 0, 0⟩

/-- A PDF whose `startxref` keyword is the last bytes of the file: the
offset is missing and no newline follows the keyword. -/
def badStartxrefPdf : List Nat := strCodes "%PDF-1.4\nstartxref"

/-- A PDF with one object and a non-numeric `startxref` offset. -/
def corruptOffsetPdf : List Nat :=
  strCodes "%PDF-1.4\n1 0 obj (Hi) endobj\nstartxref\nBAD\n%%EOF"

/-! ## Helper lemmas -/

theorem pyStripS_eq_nil {l : List Nat} (h : ∀ c ∈ l, isWsStr c) : pyStripS l = [] := by
  unfold pyStripS
  rw [List.dropWhile_eq_nil_iff.mpr h]
  rfl

theorem itemXmlParts_nil_of_ws {it : ContentItem} (h : ∀ c ∈ it.text, isWsStr c) :
    itemXmlParts it = [] := by
  unfold itemXmlParts
  rw [if_pos (pyStripS_eq_nil h)]

theorem flatMap_itemXmlParts_nil {items : List ContentItem}
    (h : ∀ it ∈ items, ∀ c ∈ it.text, isWsStr c) :
    items.flatMap itemXmlParts = [] := by
  induction items with
  | nil => rfl
  | cons it rest ih =>
    have h1 : itemXmlParts it = [] :=
      itemXmlParts_nil_of_ws (h it (List.mem_cons_self it rest))
    have h2 : rest.flatMap itemXmlParts = [] :=
      ih fun x hx => h x (List.mem_cons_of_mem it hx)
    simp [List.flatMap_cons, h1, h2]

/-! ## Claim theorems -/

/-- **C1.** For every list of content items, every font list (also the
`fonts=None` default) and every timestamp, `create_docx_file` writes
exactly the eight fixed parts, in order; `word/document.xml` is the
rendering of the content items; and an empty content-item list still
yields a document body holding a single empty paragraph element. -/
theorem c1_package_part_set (items : List ContentItem)
    (fonts : Option (List (List Nat))) (now : List Nat) :
    (create_docx_file_parts items fonts now).map Prod.fst = docxPartNames ∧
    (create_docx_file_parts items fonts now).get? 2 =
      some (strCodes "word/document.xml", create_document_xml items) ∧
    (items = [] →
      create_document_xml_parts items = emptyDocXmlParts ∧
      paraCount (create_document_xml_parts items) = 1) := by
  refine ⟨by with_unfolding_all rfl, by with_unfolding_all rfl, fun h => ?_⟩
  subst h
  exact ⟨by with_unfolding_all rfl, by decide⟩

/-- Witness for **C1** at the empty document. -/
theorem c1_package_part_set_witness :
    (create_docx_file_parts [] (some []) []).map Prod.fst = docxPartNames ∧
    create_document_xml_parts ([] : List ContentItem) = emptyDocXmlParts ∧
    paraCount (create_document_xml_parts ([] : List ContentItem)) = 1 := by
  obtain ⟨h1, _, h3⟩ := c1_package_part_set [] (some []) []
  exact ⟨h1, (h3 rfl).1, (h3 rfl).2⟩

/-- **C4 (counterexample).** The claim says Gray(0.5) converts to
`"808080"`; the code's `int(0.5 * 255)` truncates 127.5 to 127, giving
`"7F7F7F"`. -/
theorem c4_gray_half_counterexample :
    convert_color_to_hex (.gray (1 / 2)) ≠ strCodes "808080" := by
  have h : convert_color_to_hex (.gray (1 / 2)) = strCodes "7F7F7F" := by
    with_unfolding_all rfl
  rw [h]
  decide

/-- **C4 (amended).** RGB(1,0,0) → `FF0000`; CMYK(0,0,0,1) → `000000`;
CMYK(0,0,0,0) → `FFFFFF`; Gray(0.5) → `7F7F7F` (truncation of 127.5). -/
theorem c4_color_to_hex_values :
    convert_color_to_hex (.rgb 1 0 0) = strCodes "FF0000" ∧
    convert_color_to_hex (.cmyk 0 0 0 1) = strCodes "000000" ∧
    convert_color_to_hex (.cmyk 0 0 0 0) = strCodes "FFFFFF" ∧
    convert_color_to_hex (.gray (1 / 2)) = strCodes "7F7F7F" := by
  refine ⟨?_, ?_, ?_, ?_⟩ <;> with_unfolding_all rfl

/-- **C5.** `Helvetica-BoldOblique` maps to the Word family `Arial`, and
style detection on that PDF font name finds both bold (`BOLD` keyword)
and italic (`OBLIQUE` keyword), as independent flags. -/
theorem c5_font_resolution :
    map_pdf_font_to_word (strCodes "Helvetica-BoldOblique") = strCodes "Arial" ∧
    detect_font_style (strCodes "Helvetica-BoldOblique") = (true, true) := by
  refine ⟨?_, ?_⟩ <;> with_unfolding_all rfl

/-- **C10.** `create_document_xml` skips every whitespace-only item, so a
non-empty, all-whitespace item list produces a body with no paragraph
element at all (in particular the empty-paragraph fallback, which only
fires for an empty item list, is absent). -/
theorem c10_whitespace_items_no_paragraph (items : List ContentItem)
    (hne : items ≠ []) (hws : ∀ it ∈ items, ∀ c ∈ it.text, isWsStr c) :
    paraCount (create_document_xml_parts items) = 0 := by
  unfold create_document_xml_parts paraCount
  rw [flatMap_itemXmlParts_nil hws, if_neg hne]
  decide

/-- Witness for **C10**: a single item whose text is one space. -/
theorem c10_whitespace_items_no_paragraph_witness :
    paraCount (create_document_xml_parts
      [⟨strCodes " ", none, none, none, false, false⟩]) = 0 :=
  c10_whitespace_items_no_paragraph _ (by decide) (by decide)

/-- **C2 (counterexample).** On the exact single-line stream
`BT /F1 12 Tf 100 700 Td (Hello World) Tj ET` the claim expects the run
font `Calibri`; in the code the `Tf` branch only fires when `Tf` is the
line's last token, so the font stays `None` and the generated document
holds no font declaration (no line of it mentions `Calibri`). -/
theorem c2_font_counterexample :
    (extract_text_content_items helloStream).map ContentItem.font = [none] ∧
    (create_document_xml_parts (extract_text_content_items helloStream)).all
      (fun part => !hasSub (strCodes "Calibri") part) = true := by
  constructor
  · with_unfolding_all rfl
  · have h : create_document_xml_parts (extract_text_content_items helloStream) =
        helloDocParts := by with_unfolding_all rfl
    rw [h]
    decide

/-- **C2 (amended).** The conversion of that stream yields exactly one
text item (`Hello World`, no font, size 12, color `000000`) and a
document.xml with exactly one paragraph whose run carries size 24
half-points and color `000000` but no font element. -/
theorem c2_hello_world_document :
    extract_text_content_items helloStream =
      [⟨strCodes "Hello World", none, some 12, some (strCodes "000000"), false, false⟩] ∧
    create_document_xml_parts (extract_text_content_items helloStream) = helloDocParts ∧
    paraCount helloDocParts = 1 := by
  refine ⟨by with_unfolding_all rfl, by with_unfolding_all rfl, by decide⟩

/-- **C3.** For every stream with non-empty data whose declared filter
normalizes to LZWDecode, ASCII85Decode or CCITTFaxDecode, decompression
raises the unsupported-filter error (`NotImplementedError`), and
`process_content_stream` catches it, records the warning (second
component `true`) and returns the original still-encoded bytes. -/
theorem c3_unsupported_filter_degraded
    (flate : List Nat → Except PyExc (List Nat)) (data : List Nat)
    (d : List (List Nat × PyVal)) (fv : PyVal) (n g : Nat)
    (hf : pyDictGet d (strCodes "Filter") = some fv)
    (hn : filterName fv = strCodes "LZWDecode" ∨
      filterName fv = strCodes "ASCII85Decode" ∨
      filterName fv = strCodes "CCITTFaxDecode")
    (hne : data ≠ []) :
    decompress_stream flate data fv = .error .notImplementedError ∧
    process_content_stream flate ⟨n, g, d, some data⟩ = (some data, true) := by
  have hdec : decompress_stream flate data fv = .error .notImplementedError := by
    rcases hn with h | h | h <;> simp only [decompress_stream, h] <;>
      with_unfolding_all rfl
  have htruthy : pyTruthyVal fv = true := by
    rcases fv with l | l <;> rcases l with _ | ⟨c, rest⟩
    · exfalso
      rcases hn with h | h | h <;> exact absurd h (by decide)
    · simp [pyTruthyVal]
    · exfalso
      rcases hn with h | h | h <;> exact absurd h (by decide)
    · simp [pyTruthyVal]
  refine ⟨hdec, ?_⟩
  simp only [process_content_stream, hf, if_neg hne, htruthy, if_pos, hdec]

/-- **C3 (counterexample).** A stream with a declared LZWDecode filter but
empty data: `process_content_stream` returns `None` (the `if not
stream_data` guard fires before the filter is consulted), so no
unsupported-filter error is raised, no warning is surfaced, and the
original bytes are not returned. -/
theorem c3_empty_stream_counterexample :
    process_content_stream (fun _ => .ok [])
      ⟨1, 0, [(strCodes "Filter", .str (strCodes "LZWDecode"))], some []⟩ =
      (none, false) := by
  with_unfolding_all rfl

/-- Witness for **C3**: a one-byte LZW-declared stream. -/
theorem c3_unsupported_filter_degraded_witness :
    decompress_stream (fun _ => .ok []) [37] (.str (strCodes "LZWDecode")) =
      .error .notImplementedError ∧
    process_content_stream (fun _ => .ok [])
      ⟨5, 0, [(strCodes "Filter", .str (strCodes "LZWDecode"))], some [37]⟩ =
      (some [37], true) :=
  c3_unsupported_filter_degraded _ _ _ _ 5 0 (by with_unfolding_all rfl)
    (.inl (by with_unfolding_all rfl)) (by decide)

theorem detectParasLoop_ne_nil :
    ∀ (lines : List (List PosItem)) (cur : List PosItem),
      lines ≠ [] → detectParasLoop cur lines ≠ [] := by
  intro lines
  induction lines with
  | nil => intro cur h; exact absurd rfl h
  | cons line rest ih =>
    intro cur _
    cases rest with
    | nil => simp [detectParasLoop]
    | cons next rest2 =>
      simp only [detectParasLoop]
      split
      · simp
      · exact ih _ (by simp)

/-- **C6.** Items at y=700 and y=698 (gap 2 = tolerance, measured against
the line's reference y) share one line; lines at y=700 and y=650 (gap 50 >
20) fall into different paragraphs; and the final paragraph is always
emitted (`detect_paragraphs` of a non-empty line list is non-empty). -/
theorem c6_layout_grouping :
    reconstruct_layout [⟨strCodes "A", 0, 700⟩, ⟨strCodes "B", 0, 698⟩] =
      [[⟨strCodes "A", 0, 700⟩, ⟨strCodes "B", 0, 698⟩]] ∧
    detect_paragraphs [[⟨strCodes "A", 0, 700⟩], [⟨strCodes "B", 0, 650⟩]] =
      [[⟨strCodes "A", 0, 700⟩], [⟨strCodes "B", 0, 650⟩]] ∧
    ∀ lines : List (List PosItem), lines ≠ [] → detect_paragraphs lines ≠ [] := by
  refine ⟨by with_unfolding_all rfl, by with_unfolding_all rfl, ?_⟩
  intro lines hne
  cases lines with
  | nil => exact absurd rfl hne
  | cons l ls =>
    show detectParasLoop [] (l :: ls) ≠ []
    exact detectParasLoop_ne_nil _ _ (by simp)

/-- Witness for **C6**'s final-paragraph clause at a one-line input. -/
theorem c6_layout_grouping_witness :
    detect_paragraphs [[⟨strCodes "A", 0, 700⟩]] ≠ [] :=
  c6_layout_grouping.2.2 _ (by simp)

theorem splitB_eq_self {sep : Nat} {l : List Nat} (h : ∀ c ∈ l, c ≠ sep) :
    splitB sep l = [l] := by
  induction l with
  | nil => rfl
  | cons c rest ih =>
    have hr := ih fun x hx => h x (List.mem_cons_of_mem c hx)
    simp only [splitB, hr]
    rw [if_neg (h c (List.mem_cons_self c rest))]

theorem take_len_append (l₁ l₂ : List Nat) : (l₁ ++ l₂).take l₁.length = l₁ := by
  induction l₁ with
  | nil => rfl
  | cons c rest ih => simp [List.take, ih]

theorem unescapeAux_nil (fuel : Nat) : unescapeAux fuel [] = [] := by
  cases fuel <;> rfl

theorem unescapeAux_close (fuel : Nat) (h : 1 ≤ fuel) :
    unescapeAux fuel [92, 41] = [41] := by
  obtain ⟨f, rfl⟩ : ∃ f, fuel = f + 1 := ⟨fuel - 1, by omega⟩
  simp [unescapeAux, unescapeAux_nil]

theorem unescapeAux_safe_close :
    ∀ (s : List Nat) (fuel : Nat), (∀ c ∈ s, c ≠ 92) → s.length + 1 ≤ fuel →
      unescapeAux fuel (s ++ [92, 41]) = s ++ [41] := by
  intro s
  induction s with
  | nil => intro fuel _ h; simpa using unescapeAux_close fuel (by omega)
  | cons c s' ih =>
    intro fuel hsafe hfuel
    obtain ⟨f, rfl⟩ : ∃ f, fuel = f + 1 := ⟨fuel - 1, by omega⟩
    have hc : ¬(c = 92) := hsafe c (List.mem_cons_self c s')
    have hsafe' : ∀ x ∈ s', x ≠ 92 := fun x hx => hsafe x (List.mem_cons_of_mem c hx)
    cases s' with
    | nil =>
      simp only [List.cons_append, List.nil_append]
      simp only [unescapeAux, if_neg hc]
      rw [unescapeAux_close f (by simp at hfuel; omega)]
    | cons c2 s'' =>
      simp only [List.cons_append]
      simp only [unescapeAux, if_neg hc]
      rw [show (c2 :: s'') ++ [92, 41] = c2 :: (s'' ++ [92, 41]) from rfl] at *
      rw [ih f hsafe' (by simp at hfuel ⊢; omega)]
      simp

theorem pyTokensAux_append_Tj :
    ∀ (xs cur : List Nat), pyTokensAux cur (xs ++ [32, 84, 106]) =
      pyTokensAux cur xs ++ [[84, 106]] := by
  intro xs
  induction xs with
  | nil =>
    intro cur
    by_cases h : cur = [] <;> simp [pyTokensAux, h, isWsB]
  | cons c rest ih =>
    intro cur
    simp only [List.cons_append, pyTokensAux]
    by_cases hws : isWsB c
    · by_cases hcur : cur = [] <;> simp [hws, hcur, ih]
    · simp [hws, ih]

theorem hasSub_append_right (pat ys : List Nat) (h : hasSub pat ys = true) :
    ∀ xs, hasSub pat (xs ++ ys) = true := by
  intro xs
  induction xs with
  | nil => simpa using h
  | cons c rest ih => simp [hasSub, ih]

theorem findSub_41 : ∀ X : List Nat,
    findSub [41] ([106, 84, 32, 41, 41, 92] ++ X) = some 3 := by
  intro X
  simp [findSub, List.isPrefixOf]

/-- **C7.** For every simple ASCII string `s` (printable, no backslash),
processing the stream line `(\(` ++ s ++ `\)) Tj` extracts the single
text item `(` ++ s ++ `)`: the escaped closing parenthesis does not end
the payload early, and `\(`/`\)` resolve to literal parentheses. -/
theorem c7_escaped_parens_roundtrip (s : List Nat)
    (hs : ∀ c ∈ s, 32 ≤ c ∧ c ≤ 126 ∧ c ≠ 92) :
    process_stream ([40, 92, 40] ++ s ++ [92, 41, 41, 32, 84, 106]) =
      [⟨40 :: (s ++ [41]), none, 12, (0, 0, 0)⟩] := by
  have hno10 : ∀ c ∈ [40, 92, 40] ++ s ++ [92, 41, 41, 32, 84, 106], c ≠ 10 := by
    intro c hc
    rcases List.mem_append.mp hc with h1 | h2
    · rcases List.mem_append.mp h1 with h3 | h4
      · fin_cases h3 <;> decide
      · have := (hs c h4).1; omega
    · fin_cases h2 <;> decide
  have hsplit := splitB_eq_self hno10
  have htok : pyTokens ([40, 92, 40] ++ s ++ [92, 41, 41, 32, 84, 106]) =
      pyTokensAux [] ([40, 92, 40] ++ s ++ [92, 41, 41]) ++ [[84, 106]] := by
    have := pyTokensAux_append_Tj ([40, 92, 40] ++ s ++ [92, 41, 41]) []
    simpa [pyTokens, List.append_assoc] using this
  have hlast : (pyTokens ([40, 92, 40] ++ s ++ [92, 41, 41, 32, 84, 106])).getLast? =
      some [84, 106] := by
    rw [htok]
    exact List.getLast?_concat _
  have hcond1 : ¬(3 ≤ (pyTokens ([40, 92, 40] ++ s ++ [92, 41, 41, 32, 84, 106])).length ∧
      (pyTokens ([40, 92, 40] ++ s ++ [92, 41, 41, 32, 84, 106])).getLast? =
        some (strCodes "Tf")) := by
    rintro ⟨-, hl⟩
    rw [hlast] at hl
    exact absurd hl (by decide)
  have hcond2 : ¬(4 ≤ (pyTokens ([40, 92, 40] ++ s ++ [92, 41, 41, 32, 84, 106])).length ∧
      (pyTokens ([40, 92, 40] ++ s ++ [92, 41, 41, 32, 84, 106])).getLast? =
        some (strCodes "rg")) := by
    rintro ⟨-, hl⟩
    rw [hlast] at hl
    exact absurd hl (by decide)
  have hassoc : [40, 92, 40] ++ s ++ [92, 41, 41, 32, 84, 106] =
      ([40, 92, 40] ++ s) ++ [92, 41, 41, 32, 84, 106] := by
    simp [List.append_assoc]
  have hsub1 : hasSub (strCodes "(") ([40, 92, 40] ++ s ++ [92, 41, 41, 32, 84, 106]) = true := by
    simp [hasSub, List.isPrefixOf, strCodes]
  have hsub2 : hasSub (strCodes ")") ([40, 92, 40] ++ s ++ [92, 41, 41, 32, 84, 106]) = true := by
    rw [show strCodes ")" = [41] from rfl, hassoc]
    exact hasSub_append_right _ _ (by decide) _
  have hsub3 : hasSub (strCodes "Tj") ([40, 92, 40] ++ s ++ [92, 41, 41, 32, 84, 106]) = true := by
    rw [show strCodes "Tj" = [84, 106] from rfl, hassoc]
    exact hasSub_append_right _ _ (by decide) _
  have hcond3 : hasSub (strCodes "(") ([40, 92, 40] ++ s ++ [92, 41, 41, 32, 84, 106]) = true ∧
      hasSub (strCodes ")") ([40, 92, 40] ++ s ++ [92, 41, 41, 32, 84, 106]) = true ∧
      hasSub (strCodes "Tj") ([40, 92, 40] ++ s ++ [92, 41, 41, 32, 84, 106]) = true :=
    ⟨hsub1, hsub2, hsub3⟩
  have hfind : findSub (strCodes "(") ([40, 92, 40] ++ s ++ [92, 41, 41, 32, 84, 106]) =
      some 0 := by
    simp [findSub, List.isPrefixOf, strCodes]
  have hlen : ([40, 92, 40] ++ s ++ [92, 41, 41, 32, 84, 106]).length = s.length + 9 := by
    simp
  have hrev : ([40, 92, 40] ++ s ++ [92, 41, 41, 32, 84, 106]).reverse =
      [106, 84, 32, 41, 41, 92] ++ (s.reverse ++ [40, 92, 40]) := by
    simp
  have hrfind : rfindSub (strCodes ")") ([40, 92, 40] ++ s ++ [92, 41, 41, 32, 84, 106]) =
      some (s.length + 5) := by
    unfold rfindSub
    rw [show (strCodes ")").reverse = [41] from rfl, hrev, findSub_41]
    rw [hlen, show (strCodes ")").length = 1 from rfl]
    congr 1
  have htake : [40, 92, 40] ++ s ++ [92, 41, 41, 32, 84, 106] =
      ([40, 92, 40] ++ (s ++ [92, 41])) ++ [41, 32, 84, 106] := by
    simp
  have hslen : s.length + 5 = ([40, 92, 40] ++ (s ++ [92, 41])).length := by
    simp
  have hslice : (([40, 92, 40] ++ s ++ [92, 41, 41, 32, 84, 106]).take (s.length + 5)).drop 1 =
      [92, 40] ++ (s ++ [92, 41]) := by
    rw [htake, hslen, take_len_append]
    rfl
  have hunesc : unescape_pdf_string (92 :: 40 :: (s ++ [92, 41])) = 40 :: (s ++ [41]) := by
    unfold unescape_pdf_string
    rw [show (92 :: 40 :: (s ++ [92, 41])).length = (s.length + 3) + 1 by simp]
    simp only [unescapeAux]
    norm_num
    exact unescapeAux_safe_close s (s.length + 3) (fun c hc => (hs c hc).2.2) (by omega)
  unfold process_stream
  rw [hsplit]
  simp only [List.foldl_cons, List.foldl_nil]
  simp only [process_stream_line, if_neg hcond1, if_neg hcond2, if_pos hcond3, hfind, hrfind]
  rw [if_pos (show (0 : Nat) < s.length + 5 by omega)]
  simp only [Nat.zero_add, hslice]
  rw [show decode_pdf_text ([92, 40] ++ (s ++ [92, 41])) = 92 :: 40 :: (s ++ [92, 41]) from rfl]
  rw [hunesc]
  simp

/-- Witness for **C7** at `s = "Hi"`. -/
theorem c7_escaped_parens_roundtrip_witness :
    process_stream ([40, 92, 40] ++ strCodes "Hi" ++ [92, 41, 41, 32, 84, 106]) =
      [⟨40 :: (strCodes "Hi" ++ [41]), none, 12, (0, 0, 0)⟩] :=
  c7_escaped_parens_roundtrip (strCodes "Hi") (by decide)

theorem matchObjAt_advances {data : List Nat} {i o g : Nat} {c : List Nat} {e : Nat}
    (h : matchObjAt data i = some (o, g, c, e)) : i < e := by
  simp only [matchObjAt] at h
  split_ifs at h
  revert h
  split
  · intro h; contradiction
  · intro h
    simp only [Option.some.injEq, Prod.mk.injEq] at h
    omega

theorem splitB_ne_nil (sep : Nat) : ∀ l, splitB sep l ≠ []
  | [] => by simp [splitB]
  | c :: rest => by
    cases hr : splitB sep rest with
    | nil => exact absurd hr (splitB_ne_nil sep rest)
    | cons h t =>
      simp only [splitB, hr]
      split_ifs
      all_goals simp

theorem splitB_length_ge_two {sep : Nat} {l : List Nat} (h : sep ∈ l) :
    2 ≤ (splitB sep l).length := by
  induction l with
  | nil => simp at h
  | cons c rest ih =>
    cases hr : splitB sep rest with
    | nil => exact absurd hr (splitB_ne_nil sep rest)
    | cons hh tt =>
      rcases List.mem_cons.mp h with rfl | hmem
      · simp [splitB, hr]
      · have h2 := ih hmem
        rw [hr] at h2
        simp only [splitB, hr]
        split_ifs
        all_goals simp at h2 ⊢
        all_goals omega

theorem extract_pdf_version_ok (rest : List Nat) :
    ∃ v, extract_pdf_version (strCodes "%PDF-" ++ rest) = .ok v := by
  have hdata : strCodes "%PDF-" ++ rest = 37 :: 80 :: 68 :: 70 :: 45 :: rest := rfl
  rw [hdata]
  have hhead : (37 :: 80 :: 68 :: 70 :: 45 :: rest).takeWhile (· ≠ 10) =
      37 :: 80 :: 68 :: 70 :: 45 :: rest.takeWhile (· ≠ 10) := by
    simp [List.takeWhile]
  have hmem : 45 ∈ (37 :: 80 :: 68 :: 70 :: 45 :: rest).takeWhile (· ≠ 10) := by
    rw [hhead]; simp
  have hlen := splitB_length_ge_two hmem
  rcases hsp : splitB 45 ((37 :: 80 :: 68 :: 70 :: 45 :: rest).takeWhile (· ≠ 10)) with
    _ | ⟨p0, _ | ⟨p1, t⟩⟩
  · rw [hsp] at hlen; simp at hlen
  · rw [hsp] at hlen; simp at hlen
  · exact ⟨p1, by simp only [extract_pdf_version, hsp]⟩

/-- **C8 (amended).** For every input with a `%PDF-` header whose
cross-reference parse either fails with a `ValueError` (absent
`startxref` keyword, or non-numeric offset text) or finds no valid table
entries, structural parsing completes: the xref result is empty and the
objects are exactly the full-document scan's.  (When `startxref` is
present but no newline follows it, offset extraction instead raises an
uncaught `IndexError` and parsing aborts — see the counterexample.) -/
theorem c8_xref_fallback (data : List Nat) (hh : strCodes "%PDF-" <+: data)
    (hx : parse_xref data = .error .valueError ∨ parse_xref data = .ok []) :
    ∃ st, parse_pdf_structure data = .ok st ∧ st.xref = [] ∧
      st.objects = extract_objects data := by
  obtain ⟨rest, rfl⟩ := hh
  obtain ⟨v, hv⟩ := extract_pdf_version_ok rest
  rcases hx with hx | hx <;>
    exact ⟨⟨v, extract_objects (strCodes "%PDF-" ++ rest), [],
      find_content_streams (extract_objects (strCodes "%PDF-" ++ rest)),
      (extract_objects (strCodes "%PDF-" ++ rest)).length,
      (find_content_streams (extract_objects (strCodes "%PDF-" ++ rest))).length⟩,
      by simp [parse_pdf_structure, hv, hx], rfl, rfl⟩


/-- **C8 (counterexample).** `%PDF-1.4\nstartxref` has a missing
(corrupted) startxref offset, yet conversion aborts: the offset read
raises `IndexError`, which `parse_pdf_structure` does not catch. -/
theorem c8_xref_fallback_counterexample :
    parse_xref badStartxrefPdf = .error .indexError ∧
    parse_pdf_structure badStartxrefPdf = .error .indexError :=
  ⟨by with_unfolding_all rfl, by with_unfolding_all rfl⟩

/-- Witness for **C8** on a PDF with a non-numeric startxref offset: the
parse succeeds, the xref is empty, and the scan still finds the object. -/
theorem c8_xref_fallback_witness :
    (∃ st, parse_pdf_structure corruptOffsetPdf = .ok st ∧ st.xref = [] ∧
      st.objects = extract_objects corruptOffsetPdf) ∧
    extract_objects corruptOffsetPdf ≠ [] :=
  ⟨c8_xref_fallback corruptOffsetPdf
      ⟨strCodes "1.4\n1 0 obj (Hi) endobj\nstartxref\nBAD\n%%EOF",
        by with_unfolding_all rfl⟩
      (.inl (by with_unfolding_all rfl)),
    by decide⟩

theorem eq_of_perm_of_sorted_anti {α : Type} {r : α → α → Prop} :
    ∀ {l₁ l₂ : List α}, l₁.Perm l₂ → l₁.Sorted r → l₂.Sorted r →
      (∀ a ∈ l₁, ∀ b ∈ l₁, r a b → r b a → a = b) → l₁ = l₂ := by
  intro l₁
  induction l₁ with
  | nil =>
    intro l₂ hp _ _ _
    exact (List.Perm.eq_nil hp.symm).symm
  | cons a t ih =>
    intro l₂ hp hs₁ hs₂ hanti
    cases l₂ with
    | nil => simpa using List.Perm.eq_nil hp
    | cons b t₂ =>
      have hab : a = b := by
        by_cases he : a = b
        · exact he
        · have hamem : a ∈ b :: t₂ := hp.mem_iff.mp (List.mem_cons_self a t)
          have hat₂ : a ∈ t₂ := by
            rcases List.mem_cons.mp hamem with h | h
            · exact absurd h he
            · exact h
          have hbmem : b ∈ a :: t := hp.mem_iff.mpr (List.mem_cons_self b t₂)
          have hbt : b ∈ t := by
            rcases List.mem_cons.mp hbmem with h | h
            · exact absurd h.symm he
            · exact h
          have hrab : r a b := (List.pairwise_cons.mp hs₁).1 b hbt
          have hrba : r b a := (List.pairwise_cons.mp hs₂).1 a hat₂
          exact hanti a (List.mem_cons_self a t) b (List.mem_cons_of_mem a hbt) hrab hrba
      subst hab
      have ht : t = t₂ :=
        ih hp.cons_inv hs₁.of_cons hs₂.of_cons
          (fun x hx y hy => hanti x (List.mem_cons_of_mem a hx) y (List.mem_cons_of_mem a hy))
      rw [ht]

theorem leYX_both {a b : PosItem} (h1 : leYX a b) (h2 : leYX b a) :
    a.y = b.y ∧ a.x = b.x := by
  rcases h1 with h1 | ⟨h1y, h1x⟩ <;> rcases h2 with h2 | ⟨h2y, h2x⟩
  · exact absurd (h1.trans h2) (lt_irrefl _)
  · exact absurd (h2y ▸ h1) (lt_irrefl _)
  · exact absurd (h1y ▸ h2) (lt_irrefl _)
  · exact ⟨h1y, le_antisymm h1x h2x⟩

/-- **C9 (amended).** Layout reconstruction and paragraph detection are
invariant under permutation of the input items provided any two items
sharing the same (y, x) are identical; both stable sorts then produce the
same sequence, so lines and paragraphs coincide. -/
theorem c9_layout_permutation_invariant (l₁ l₂ : List PosItem) (hp : l₁.Perm l₂)
    (hinj : ∀ a ∈ l₁, ∀ b ∈ l₁, a.y = b.y → a.x = b.x → a = b) :
    reconstruct_layout l₁ = reconstruct_layout l₂ ∧
    detect_paragraphs (reconstruct_layout l₁) = detect_paragraphs (reconstruct_layout l₂) := by
  have hsort : pySorted leYX l₁ = pySorted leYX l₂ := by
    apply eq_of_perm_of_sorted_anti
    · exact (List.perm_insertionSort leYX l₁).trans
        (hp.trans (List.perm_insertionSort leYX l₂).symm)
    · exact List.sorted_insertionSort leYX l₁
    · exact List.sorted_insertionSort leYX l₂
    · intro a ha b hb hab hba
      have ha' : a ∈ l₁ := (List.mem_insertionSort leYX).mp ha
      have hb' : b ∈ l₁ := (List.mem_insertionSort leYX).mp hb
      obtain ⟨hy, hx⟩ := leYX_both hab hba
      exact hinj a ha' b hb' hy hx
  have h1 : reconstruct_layout l₁ = reconstruct_layout l₂ := by
    unfold reconstruct_layout
    rw [hsort]
  exact ⟨h1, congrArg detect_paragraphs h1⟩

/-- **C9 (counterexample).** The stable sort preserves the input order of
distinct items that share the exact same (y, x), so two permutations of
such a collection yield different lines: the output is not a function of
the (y, x) coordinates only. -/
theorem c9_layout_permutation_counterexample :
    [pTieA, pTieB].Perm [pTieB, pTieA] ∧
    reconstruct_layout [pTieA, pTieB] ≠ reconstruct_layout [pTieB, pTieA] := by
  constructor
  · exact List.Perm.swap pTieB pTieA []
  · have h1 : reconstruct_layout [pTieA, pTieB] = [[pTieA, pTieB]] := by
      with_unfolding_all rfl
    have h2 : reconstruct_layout [pTieB, pTieA] = [[pTieB, pTieA]] := by
      with_unfolding_all rfl
    rw [h1, h2]
    intro h
    simp [pTieA, pTieB] at h

/-- Witness for **C9** on two items with distinct coordinates. -/
theorem c9_layout_permutation_invariant_witness :
    reconstruct_layout [(⟨[65], 0, 1⟩ : PosItem), ⟨[66], 0, 0⟩] =
      reconstruct_layout [(⟨[66], 0, 0⟩ : PosItem), ⟨[65], 0, 1⟩] :=
  (c9_layout_permutation_invariant _ _ (List.Perm.swap _ _ _)
    (by
      intro a ha b hb hy hx
      fin_cases ha <;> fin_cases hb <;> first | rfl | (exfalso; norm_num at hy))).1
